import Mathlib

/-!
Shallow embedding of the `gaied-marvels` email-ingestion pipeline
(`src/code/src/main.py`, class `EmailProcessor`) and verification of the
spec claims about it.  Machine-level facts (SHA-256, UTF-8, JSON) are
embedded as executable Lean functions over `Nat`/`String`.
-/

namespace EmailProc

/-! ## Python string helpers -/

/-- Python `str.strip()` whitespace set (ASCII part). -/
def isPyWs (c : Char) : Bool :=
  c = ' ' || c = '\t' || c = '\n' || c = '\r' || c = '\x0b' || c = '\x0c'

/-- Python `str.strip()`: drop leading and trailing whitespace. -/
def pyStrip (s : String) : String :=
  String.mk (((s.data.dropWhile isPyWs).reverse.dropWhile isPyWs).reverse)

/-- Python `sep.join(xs)`. -/
def pyJoin (sep : String) : List String → String
  | [] => ""
  | [x] => x
  | x :: y :: rest => x ++ sep ++ pyJoin sep (y :: rest)

/-- Python `s.endswith(suf)`. -/
def pyEndsWith (s suf : String) : Bool := List.isSuffixOf suf.data s.data

/-- Python `s.lower()` (ASCII range, which covers file extensions). -/
def pyLower (s : String) : String := String.mk (s.data.map Char.toLower)

/-! ## UTF-8 encoding (`text.encode('utf-8')`), bytes as `Nat` < 256 -/

def utf8EncodeCharNat (c : Nat) : List Nat :=
  if c < 128 then [c]
  else if c < 2048 then [192 + c / 64, 128 + c % 64]
  else if c < 65536 then [224 + c / 4096, 128 + (c / 64) % 64, 128 + c % 64]
  else [240 + c / 262144, 128 + (c / 4096) % 64, 128 + (c / 64) % 64, 128 + c % 64]

def utf8Bytes (s : String) : List Nat :=
  s.data.foldr (fun c acc => utf8EncodeCharNat c.toNat ++ acc) []

/-! ## SHA-256 (FIPS 180-4), words as `Nat` reduced mod 2^32 -/

def w32 (n : Nat) : Nat := n % 4294967296

def rotr32 (n x : Nat) : Nat := w32 ((x >>> n) ||| (x <<< (32 - n)))

def ssig0 (x : Nat) : Nat := (rotr32 7 x) ^^^ (rotr32 18 x) ^^^ (x >>> 3)
def ssig1 (x : Nat) : Nat := (rotr32 17 x) ^^^ (rotr32 19 x) ^^^ (x >>> 10)
def bsig0 (x : Nat) : Nat := (rotr32 2 x) ^^^ (rotr32 13 x) ^^^ (rotr32 22 x)
def bsig1 (x : Nat) : Nat := (rotr32 6 x) ^^^ (rotr32 11 x) ^^^ (rotr32 25 x)
def chW (x y z : Nat) : Nat := (x &&& y) ^^^ ((x ^^^ 4294967295) &&& z)
def majW (x y z : Nat) : Nat := (x &&& y) ^^^ (x &&& z) ^^^ (y &&& z)

def sha256K : List Nat :=
  [1116352408, 1899447441, 3049323471, 3921009573, 961987163, 1508970993,
   2453635748, 2870763221, 3624381080, 310598401, 607225278, 1426881987,
   1925078388, 2162078206, 2614888103, 3248222580, 3835390401, 4022224774,
   264347078, 604807628, 770255983, 1249150122, 1555081692, 1996064986,
   2554220882, 2821834349, 2952996808, 3210313671, 3336571891, 3584528711,
   113926993, 338241895, 666307205, 773529912, 1294757372, 1396182291,
   1695183700, 1986661051, 2177026350, 2456956037, 2730485921, 2820302411,
   3259730800, 3345764771, 3516065817, 3600352804, 4094571909, 275423344,
   430227734, 506948616, 659060556, 883997877, 958139571, 1322822218,
   1537002063, 1747873779, 1955562222, 2024104815, 2227730452, 2361852424,
   2428436474, 2756734187, 3204031479, 3329325298]

def sha256InitH : List Nat :=
  [1779033703, 3144134277, 1013904242, 2773480762, 1359893119, 2600822924,
   528734635, 1541459225]

/-- Padding: append `0x80`, zeros to 56 mod 64, then the 64-bit big-endian bit length. -/
def sha256Pad (msg : List Nat) : List Nat :=
  let l := msg.length
  let z := (120 - ((l + 1) % 64)) % 64
  let bits := 8 * l
  msg ++ [128] ++ List.replicate z 0 ++
    [(bits >>> 56) % 256, (bits >>> 48) % 256, (bits >>> 40) % 256, (bits >>> 32) % 256,
     (bits >>> 24) % 256, (bits >>> 16) % 256, (bits >>> 8) % 256, bits % 256]

def chunks64Fuel : Nat → List Nat → List (List Nat)
  | 0, _ => []
  | _, [] => []
  | fuel + 1, a :: rest => (a :: rest).take 64 :: chunks64Fuel fuel (List.drop 63 rest)

def chunks64 (l : List Nat) : List (List Nat) := chunks64Fuel l.length l

/-- Big-endian 4-byte groups to 32-bit words. -/
def toWords : List Nat → List Nat
  | b0 :: b1 :: b2 :: b3 :: rest =>
      (b0 * 16777216 + b1 * 65536 + b2 * 256 + b3) :: toWords rest
  | _ => []

def extendStep (w : List Nat) : List Nat :=
  let n := w.length
  w ++ [w32 (ssig1 (w.getD (n - 2) 0) + w.getD (n - 7) 0 +
             ssig0 (w.getD (n - 15) 0) + w.getD (n - 16) 0)]

def extendW (w : List Nat) : Nat → List Nat
  | 0 => w
  | n + 1 => extendW (extendStep w) n

def compressStep (s : List Nat) (kw : Nat × Nat) : List Nat :=
  match s with
  | [a, b, c, d, e, f, g, h] =>
    let t1 := w32 (h + bsig1 e + chW e f g + kw.1 + kw.2)
    let t2 := w32 (bsig0 a + majW a b c)
    [w32 (t1 + t2), a, b, c, w32 (d + t1), e, f, g]
  | s => s

def sha256Block (h : List Nat) (block : List Nat) : List Nat :=
  let w := extendW (toWords block) 48
  let s := (List.zip sha256K w).foldl compressStep h
  List.zipWith (fun x y => w32 (x + y)) h s

def wordToBytesBE (w : Nat) : List Nat :=
  [(w >>> 24) % 256, (w >>> 16) % 256, (w >>> 8) % 256, w % 256]

/-- SHA-256 digest of a byte sequence, as the 32 digest bytes. -/
def sha256Bytes (msg : List Nat) : List Nat :=
  ((chunks64 (sha256Pad msg)).foldl sha256Block sha256InitH).foldr
    (fun w acc => wordToBytesBE w ++ acc) []

def hexChar (n : Nat) : Char := if n < 10 then Char.ofNat (48 + n) else Char.ofNat (87 + n)

def byteToHex (b : Nat) : List Char := [hexChar (b / 16), hexChar (b % 16)]

def bytesToHex (bs : List Nat) : String :=
  String.mk (bs.foldr (fun b acc => byteToHex b ++ acc) [])

/-- Source `EmailProcessor.generate_hash`:
`hashlib.sha256(text.encode('utf-8')).hexdigest()` — see
`EmailProcessor.generate_hash` (main.py lines 71-74). -/
def generate_hash (text : String) : String :=
  bytesToHex (sha256Bytes (utf8Bytes text))

/-- Sanity: the FIPS 180-4 test vector for the empty message. -/
example : generate_hash "" =
    "e3b0c44298fc1c149afbf4c8996fb92427ae41e4649b934ca495991b7852b855" := by decide

/-- Sanity: the FIPS 180-4 test vector for "abc". -/
example : generate_hash "abc" =
    "ba7816bf8f01cfea414140de5dae2223b00361a396177a9cb410ff61f20015ad" := by decide

/-! ## Model of `os.path.splitext(path)[1]` (posixpath): the extension is the part of the
basename from its last dot on, unless every character before that dot in the
basename is itself a dot. -/

def splitextExt (path : String) : String :=
  let base := (path.data.reverse.takeWhile (fun c => c ≠ '/')).reverse
  let r := base.reverse
  let suf := r.takeWhile (fun c => c ≠ '.')
  if suf.length = r.length then ""
  else if ((r.drop (suf.length + 1)).reverse).any (fun c => c ≠ '.') then
    String.mk ('.' :: suf.reverse)
  else ""

example : splitextExt "attachments/report.PDF" = ".PDF" := by decide
example : splitextExt "attachments/archive.tar.gz" = ".gz" := by decide
example : splitextExt "attachments/.bashrc" = "" := by decide
example : splitextExt "attachments/noext" = "" := by decide

/-! ## Source `EmailProcessor.extract_json` (main.py lines 118-127):
`re.search(r'\x7b[^\x7b\x7d]*\x7d', response_text, re.DOTALL)`.
`re.search` tries each start position left to right; at a position the pattern
matches iff the character there is `{` and the next brace after it is `}`. -/

/-- Scan the characters after an opening brace: collect non-brace characters
until a closing brace (success) , failing on a second opening brace or
end of input.  Returns the interior and the remainder after the `\x7d`. -/
def takeInterior : List Char → Option (List Char × List Char)
  | [] => none
  | c :: rest =>
    if c = '\x7d' then some ([], rest)
    else if c = '\x7b' then none
    else
      match takeInterior rest with
      | some (i, r) => some (c :: i, r)
      | none => none

/-- The regex search: first position whose `\x7b` is followed (through
non-brace characters) by `\x7d`; yields the whole matched substring. -/
def findJson : List Char → Option (List Char)
  | [] => none
  | c :: rest =>
    if c = '\x7b' then
      match takeInterior rest with
      | some (i, _) => some ('\x7b' :: i ++ ['\x7d'])
      | none => findJson rest
    else findJson rest

/-- Source `EmailProcessor.extract_json`.  Here `none` models `response_text is None`
(a failed service call): `re.search` then raises `TypeError`, which the
`except Exception` arm converts into `"JSON extraction failed"`. -/
def extract_json : Option String → String
  | none => "JSON extraction failed"
  | some s =>
    match findJson s.data with
    | some m => String.mk m
    | none => "No JSON found in response."

example : extract_json (some "text \x7ba\x7d tail \x7bb\x7d") = "\x7ba\x7d" := by decide
example : extract_json (some "\x7b\x7bnested\x7d") = "\x7bnested\x7d" := by decide
example : extract_json (some "no braces") = "No JSON found in response." := by decide

/-! ## Model of `json.loads` (Python stdlib, default flags), as an executable
strict JSON parser.  Values are kept structurally; numeric lexemes verbatim. -/

inductive JVal where
  | null : JVal
  | bool : Bool → JVal
  | num : String → JVal
  | str : String → JVal
  | arr : List JVal → JVal
  | obj : List (String × JVal) → JVal

/-- JSON whitespace skipped by the decoder: space, tab, newline, return. -/
def skipWs : List Char → List Char
  | c :: rest =>
    if c = ' ' || c = '\t' || c = '\n' || c = '\r' then skipWs rest else c :: rest
  | [] => []

def hexDigVal (c : Char) : Option Nat :=
  if '0' ≤ c ∧ c ≤ '9' then some (c.toNat - 48)
  else if 'a' ≤ c ∧ c ≤ 'f' then some (c.toNat - 87)
  else if 'A' ≤ c ∧ c ≤ 'F' then some (c.toNat - 55)
  else none

/-- JSON string body after the opening quote; strict mode rejects raw
control characters. -/
def parseJStr : Nat → List Char → Option (List Char × List Char)
  | 0, _ => none
  | _, [] => none
  | fuel + 1, c :: rest =>
    if c = '"' then some ([], rest)
    else if c = '\\' then
      match rest with
      | [] => none
      | e :: r2 =>
        let cont := fun (ch : Char) (r : List Char) =>
          (parseJStr fuel r).map (fun p => (ch :: p.1, p.2))
        if e = '"' then cont '"' r2
        else if e = '\\' then cont '\\' r2
        else if e = '/' then cont '/' r2
        else if e = 'b' then cont '\x08' r2
        else if e = 'f' then cont '\x0c' r2
        else if e = 'n' then cont '\n' r2
        else if e = 'r' then cont '\r' r2
        else if e = 't' then cont '\t' r2
        else if e = 'u' then
          match r2 with
          | h1 :: h2 :: h3 :: h4 :: r3 =>
            match hexDigVal h1, hexDigVal h2, hexDigVal h3, hexDigVal h4 with
            | some a, some b, some c2, some d =>
              cont (Char.ofNat (a * 4096 + b * 256 + c2 * 16 + d)) r3
            | _, _, _, _ => none
          | _ => none
        else none
    else if c.toNat < 32 then none
    else (parseJStr fuel rest).map (fun p => (c :: p.1, p.2))

/-- JSON number lexeme `-?(0|[1-9][0-9]*)(\.[0-9]+)?([eE][+-]?[0-9]+)?`,
returned verbatim.  Input starts at `-` or a digit. -/
def parseJNum (s : List Char) : Option (List Char × List Char) :=
  let (sign, s1) := match s with
    | '-' :: r => (['-'], r)
    | _ => (([] : List Char), s)
  match s1 with
  | c :: r =>
    if c.isDigit then
      let (ip, r2) :=
        if c = '0' then ([c], r)
        else (c :: r.takeWhile Char.isDigit, r.dropWhile Char.isDigit)
      let (fp, r3) := match r2 with
        | '.' :: d :: rr =>
          if d.isDigit then
            ('.' :: d :: rr.takeWhile Char.isDigit, rr.dropWhile Char.isDigit)
          else (([] : List Char), r2)
        | _ => (([] : List Char), r2)
      let (ep, r4) := match r3 with
        | e :: tl =>
          if e = 'e' ∨ e = 'E' then
            let (sg, tl2) := match tl with
              | '+' :: t2 => (['+'], t2)
              | '-' :: t2 => (['-'], t2)
              | _ => (([] : List Char), tl)
            match tl2 with
            | d :: t3 =>
              if d.isDigit then
                (e :: sg ++ d :: t3.takeWhile Char.isDigit, t3.dropWhile Char.isDigit)
              else (([] : List Char), r3)
            | [] => (([] : List Char), r3)
          else (([] : List Char), r3)
        | [] => (([] : List Char), r3)
      some (sign ++ ip ++ fp ++ ep, r4)
    else none
  | [] => none

/-- Parser state: a plain value, the member list of an object after `\x7b`,
or the item list of an array after `[`. -/
inductive PMode where
  | val : PMode
  | members : List (String × JVal) → PMode
  | items : List JVal → PMode

def startsList (pre s : List Char) : Option (List Char) :=
  if pre.isPrefixOf s then some (s.drop pre.length) else none

/-- The recursive descent decoder, fuel-indexed. -/
def parseF : Nat → PMode → List Char → Option (JVal × List Char)
  | 0, _, _ => none
  | fuel + 1, PMode.val, s =>
    match skipWs s with
    | [] => none
    | c :: rest =>
      if c = '"' then
        (parseJStr (rest.length + 1) rest).map (fun p => (JVal.str (String.mk p.1), p.2))
      else if c = '\x7b' then
        match skipWs rest with
        | '\x7d' :: r2 => some (JVal.obj [], r2)
        | r2 => parseF fuel (PMode.members []) r2
      else if c = '[' then
        match skipWs rest with
        | ']' :: r2 => some (JVal.arr [], r2)
        | r2 => parseF fuel (PMode.items []) r2
      else if c = 't' then
        (startsList ['r', 'u', 'e'] rest).map (fun r => (JVal.bool true, r))
      else if c = 'f' then
        (startsList ['a', 'l', 's', 'e'] rest).map (fun r => (JVal.bool false, r))
      else if c = 'n' then
        (startsList ['u', 'l', 'l'] rest).map (fun r => (JVal.null, r))
      else if c = 'N' then
        (startsList ['a', 'N'] rest).map (fun r => (JVal.num "NaN", r))
      else if c = 'I' then
        (startsList ['n', 'f', 'i', 'n', 'i', 't', 'y'] rest).map
          (fun r => (JVal.num "Infinity", r))
      else if c = '-' ∧ rest.take 1 = ['I'] then
        (startsList ['I', 'n', 'f', 'i', 'n', 'i', 't', 'y'] rest).map
          (fun r => (JVal.num "-Infinity", r))
      else if c = '-' ∨ c.isDigit then
        (parseJNum (c :: rest)).map (fun p => (JVal.num (String.mk p.1), p.2))
      else none
  | fuel + 1, PMode.members acc, s =>
    match s with
    | '"' :: rest =>
      match parseJStr (rest.length + 1) rest with
      | some (k, r1) =>
        match skipWs r1 with
        | ':' :: r2 =>
          match parseF fuel PMode.val r2 with
          | some (v, r3) =>
            match skipWs r3 with
            | ',' :: r4 => parseF fuel (PMode.members (acc ++ [(String.mk k, v)])) (skipWs r4)
            | '\x7d' :: r4 => some (JVal.obj (acc ++ [(String.mk k, v)]), r4)
            | _ => none
          | none => none
        | _ => none
      | none => none
    | _ => none
  | fuel + 1, PMode.items acc, s =>
    match parseF fuel PMode.val s with
    | some (v, r1) =>
      match skipWs r1 with
      | ',' :: r2 => parseF fuel (PMode.items (acc ++ [v])) r2
      | ']' :: r2 => some (JVal.arr (acc ++ [v]), r2)
      | _ => none
    | none => none

/-- Model of `json.loads`: decode one value, then only whitespace may remain. -/
def json_loads (s : String) : Option JVal :=
  match parseF (4 * s.data.length + 16) PMode.val s.data with
  | some (v, rest) => if skipWs rest = [] then some v else none
  | none => none

/-- Key lookup on a decoded object with Python `dict` semantics: a repeated
key keeps its last value; `dict.get(k, dflt)`. -/
def jsonGet (kvs : List (String × JVal)) (k : String) (dflt : JVal) : JVal :=
  (kvs.foldl (fun acc kv => if kv.1 = k then some kv.2 else acc) none).getD dflt

def jvalIsObj : Option JVal → Bool
  | some (JVal.obj _) => true
  | _ => false

example : jvalIsObj (json_loads "\x7b\"request_type\": \"Loan Services\", \"n\": 1.5e3\x7d") = true := by decide
example : json_loads "No JSON found in response." = none := rfl
example : json_loads "JSON extraction failed" = none := rfl
example : json_loads "  null " = some JVal.null := rfl

/-! ## Model of `json.dumps` on a list of strings (default flags: `ensure_ascii=True`,
item separator `", "`) — used for the `attachment_path` column. -/

def hex4 (n : Nat) : String :=
  String.mk [hexChar (n / 4096 % 16), hexChar (n / 256 % 16), hexChar (n / 16 % 16),
    hexChar (n % 16)]

def jsonEscapeChar (c : Char) : String :=
  if c = '"' then "\\\""
  else if c = '\\' then "\\\\"
  else if c = '\n' then "\\n"
  else if c = '\r' then "\\r"
  else if c = '\t' then "\\t"
  else if c = '\x08' then "\\b"
  else if c = '\x0c' then "\\f"
  else if c.toNat < 32 then "\\u" ++ hex4 c.toNat
  else if c.toNat < 127 then String.mk [c]
  else if c.toNat < 65536 then "\\u" ++ hex4 c.toNat
  else
    "\\u" ++ hex4 (55296 + (c.toNat - 65536) / 1024) ++
    "\\u" ++ hex4 (56320 + (c.toNat - 65536) % 1024)

def json_dumps_strlist (xs : List String) : String :=
  "[" ++ pyJoin ", "
    (xs.map (fun s => "\"" ++ (s.data.foldr (fun c acc => jsonEscapeChar c ++ acc) "") ++ "\""))
    ++ "]"

example : json_dumps_strlist [] = "[]" := by decide
example : json_dumps_strlist ["attachments/a.txt"] = "[\"attachments/a.txt\"]" := by decide

/-! ## Attachment extraction (main.py lines 223-269).

The format libraries (PyMuPDF, `open`/`read`, python-docx, PIL+pytesseract)
are external collaborators; each is an oracle mapping a file path either to
the raw text it yields or to the message of the exception it raises. -/

structure ExtractOracle where
  readPdf : String → Except String String
  readTxt : String → Except String String
  readDocx : String → Except String String
  readImage : String → Except String String

/-- Source `_extract_text_from_pdf`: page texts joined by the library (opaque);
exceptions become a marker string. -/
def extract_text_from_pdf (ora : ExtractOracle) (file_path : String) : String :=
  match ora.readPdf file_path with
  | Except.ok t => t
  | Except.error e => "[Error reading PDF: " ++ e ++ "]"

/-- Source `_extract_text_from_txt`: `open(...).read().strip()`. -/
def extract_text_from_txt (ora : ExtractOracle) (file_path : String) : String :=
  match ora.readTxt file_path with
  | Except.ok t => pyStrip t
  | Except.error e => "[Error reading TXT file: " ++ e ++ "]"

/-- Source `_extract_text_from_docx`: paragraph texts joined by newlines (opaque). -/
def extract_text_from_docx (ora : ExtractOracle) (file_path : String) : String :=
  match ora.readDocx file_path with
  | Except.ok t => t
  | Except.error e => "[Error reading DOCX file: " ++ e ++ "]"

/-- Source `_extract_text_from_image`: OCR output stripped. -/
def extract_text_from_image (ora : ExtractOracle) (file_path : String) : String :=
  match ora.readImage file_path with
  | Except.ok t => pyStrip t
  | Except.error e => "[Error reading image: " ++ e ++ "]"

/-- Source `extract_attachment_content`: dispatch on the lowercased extension;
unknown extensions fall through to the unsupported-type marker. -/
def extract_attachment_content (ora : ExtractOracle) (file_path : String) : String :=
  let ext := pyLower (splitextExt file_path)
  if ext = ".pdf" then extract_text_from_pdf ora file_path
  else if ext = ".txt" then extract_text_from_txt ora file_path
  else if ext = ".docx" then extract_text_from_docx ora file_path
  else if ext = ".png" ∨ ext = ".jpg" ∨ ext = ".jpeg" then extract_text_from_image ora file_path
  else "[Unsupported file type: " ++ ext ++ "]"

/-! ## Store (SQLite `emails` table; main.py lines 36-51, 187-221).

A row per `StoredEmail`; `id` (= `frm + subject`) is the PRIMARY KEY, the
`hash` column carries the fingerprint and has no constraint.  A store is the
row list in rowid (= insertion) order. -/

structure StoredEmail where
  id : String
  frm : String
  subject : String
  body : String
  attachment_path : String
  hash : String
  request_type : JVal
  sub_request_type : JVal
  summary : JVal

abbrev Store := List StoredEmail

/-- Model of `INSERT OR IGNORE`: the only uniqueness SQLite enforces here is the
PRIMARY KEY on `id`; a conflicting `id` makes the insert a silent no-op. -/
def insertOrIgnore (store : Store) (row : StoredEmail) : Store :=
  if store.any (fun r => r.id = row.id) then store else store ++ [row]

/-- Source `_check_duplicate`: `SELECT ... WHERE hash = ?` + `fetchone()` — the
first row in rowid order whose `hash` column matches. -/
def checkDuplicate (store : Store) (h : String) : Option StoredEmail :=
  store.find? (fun r => r.hash = h)

/-- Source `_save_email_to_database` (main.py lines 203-221). -/
def save_email_to_database (store : Store) (frm subject body : String)
    (attachment_paths : List String) (email_hash : String)
    (response_json : List (String × JVal)) : Store :=
  insertOrIgnore store
    { id := frm ++ subject
      frm := frm
      subject := subject
      body := body
      attachment_path := json_dumps_strlist attachment_paths
      hash := email_hash
      request_type := jsonGet response_json "request_type" (JVal.str "Unknown")
      sub_request_type := jsonGet response_json "sub_request_type" (JVal.str "Unknown")
      summary := jsonGet response_json "summary" (JVal.str "No summary provided") }

/-! ## Taxonomy (main.py lines 58-69, 81-83). -/

def initialize_request_types : List (String × String) :=
  [("Account Management", "Update Contact Details"),
   ("Account Management", "Close Account"),
   ("Transaction Issues", "Failed Transaction"),
   ("Transaction Issues", "Disputed Transaction"),
   ("Loan Services", "Apply for Loan"),
   ("Loan Services", "Loan Repayment Issues"),
   ("Credit Card Services", "Lost or Stolen Card"),
   ("Credit Card Services", "Request Credit Limit Increase")]

def add_request_type (l : List (String × String)) (category request_type : String) :
    List (String × String) :=
  l ++ [(category, request_type)]

/-! ## Fingerprint and canonical document (main.py lines 76-79, 142-145). -/

/-- Source `generate_email_hash`: the digest input is `body + "\n".join(attachments)`. -/
def generate_email_hash (body : String) (attachments : List String) : String :=
  generate_hash (body ++ pyJoin "\n" attachments)

/-- Source `full_text`, the canonical document handed to classification:
`f"Email Body:\n{body}\n\nAttachments:\n" + "\n\n".join(attachment_texts)`. -/
def full_text (body : String) (attachment_texts : List String) : String :=
  "Email Body:\n" ++ body ++ "\n\nAttachments:\n" ++ pyJoin "\n\n" attachment_texts

/-! ## Classification prompt and client (main.py lines 85-116). -/

def request_data_str (request_types : List (String × String)) : String :=
  pyJoin "\n" (request_types.map (fun r => "- " ++ r.1 ++ ": " ++ r.2))

/-- The rendered `PromptTemplate` (main.py lines 89-100), verbatim. -/
def prompt_text (request_types : List (String × String)) (body : String) : String :=
  "\n            Classify the following bank customer query into a request type and sub-request type using the available categories below. Then generate a brief summary.\n            Available Request Types and Sub-Requests: "
  ++ request_data_str request_types
  ++ "\n            \n            Query: " ++ body
  ++ "\n            Provide the response in JSON format with keys: request_type, sub_request_type, summary.\n            "

/-- Source `classify_and_summarize`: `ask` is the Hugging Face call `ask_question`
(`some generated_text`, or `none` when `requests` raised and the handler
returned `None`). -/
def classify_and_summarize (request_types : List (String × String))
    (ask : String → Option String) (body : String) : String :=
  extract_json (ask (prompt_text request_types body))

/-! ## The pipeline `process_email` (main.py lines 129-185). -/

structure EmailInput where
  filename : String
  frm : String
  subject : String
  body : String
  /-- attachment parts in message order: `some name` for a part carrying a
  filename, `none` for one without (skipped by the loop). -/
  parts : List (Option String)

/-- One iteration of the `_process_attachments` loop: a part without a
filename is skipped; otherwise the file is saved under `attachments/`, its
path recorded, and its extracted text kept when truthy (non-empty). -/
def pa_step (ora : ExtractOracle) (acc : List String × List String) (part : Option String) :
    List String × List String :=
  match part with
  | none => acc
  | some filename =>
    let file_path := "attachments/" ++ filename
    let content := extract_attachment_content ora file_path
    (acc.1 ++ [file_path], if content = "" then acc.2 else acc.2 ++ [content])

/-- Source `_process_attachments` (main.py lines 168-185): the loop over
`iter_attachments()`, yielding `(attachment_paths, attachment_texts)`. -/
def process_attachments (ora : ExtractOracle) (parts : List (Option String)) :
    List String × List String :=
  parts.foldl (pa_step ora) ([], [])

inductive PyErr where
  | httpError : Nat → String → PyErr
  | jsonDecodeError : String → PyErr
  | attributeError : PyErr

inductive PResult where
  /-- Carries `message`, then the previous email's sender, subject and
  classification fields. -/
  | duplicate : String → String → String → JVal → JVal → JVal → PResult
  | classified : String → String → JVal → JVal → JVal → PResult

structure RunOut where
  result : Except PyErr PResult
  store : Store
  /-- number of calls made to the external classification service -/
  calls : Nat
  /-- attachment file paths written under `attachments/` -/
  written : List String

/-- Source `EmailProcessor.process_email` (main.py lines 129-166). -/
def process_email (request_types : List (String × String)) (ora : ExtractOracle)
    (ask : String → Option String) (store : Store) (input : EmailInput) : RunOut :=
  if pyEndsWith input.filename ".eml" = false then
    { result := Except.error (PyErr.httpError 400 "Invalid file type. Please upload a .eml file.")
      store := store, calls := 0, written := [] }
  else
    let attachment_paths := (process_attachments ora input.parts).1
    let attachment_texts := (process_attachments ora input.parts).2
    let ftext := full_text input.body attachment_texts
    let email_hash := generate_email_hash input.body attachment_texts
    match checkDuplicate store email_hash with
    | some dup =>
      { result := Except.ok (PResult.duplicate "Duplicate email detected." dup.frm dup.subject
          dup.request_type dup.sub_request_type dup.summary)
        store := store, calls := 0, written := attachment_paths }
    | none =>
      let response_text := classify_and_summarize request_types ask ftext
      match json_loads response_text with
      | none =>
        { result := Except.error (PyErr.jsonDecodeError response_text)
          store := store, calls := 1, written := attachment_paths }
      | some (JVal.obj kvs) =>
        { result := Except.ok (PResult.classified input.frm input.subject
            (jsonGet kvs "request_type" (JVal.str "Unknown"))
            (jsonGet kvs "sub_request_type" (JVal.str "Unknown"))
            (jsonGet kvs "summary" (JVal.str "No summary provided")))
          store := save_email_to_database store input.frm input.subject input.body
            attachment_paths email_hash kvs
          calls := 1, written := attachment_paths }
      | some _ =>
        { result := Except.error PyErr.attributeError
          store := store, calls := 1, written := attachment_paths }

/-- Holds (`true`) exactly on the duplicate short-circuit result. -/
def isDuplicateResult (r : RunOut) : Bool :=
  match r.result with
  | Except.ok (PResult.duplicate _ _ _ _ _ _) => true
  | _ => false

/-! ## Reachability: store states produced by the pipeline from a fresh
in-memory database, and taxonomy states produced by the append interface. -/

inductive StoreReachable : Store → Prop where
  | empty : StoreReachable []
  | step : ∀ {s} (rt : List (String × String)) (ora : ExtractOracle)
      (ask : String → Option String) (inp : EmailInput),
      StoreReachable s → StoreReachable (process_email rt ora ask s inp).store

inductive TaxReachable : List (String × String) → Prop where
  | seed : TaxReachable initialize_request_types
  | step : ∀ {l} (c r : String), TaxReachable l → TaxReachable (add_request_type l c r)

/-- Rows carrying a given fingerprint. -/
def hashCount (s : Store) (h : String) : Nat :=
  s.countP (fun r => r.hash = h)

/-! ## Shape of a SHA-256 hex digest -/

def hexChars : List Char := "0123456789abcdef".data

lemma compressStep_length (s : List Nat) (kw : Nat × Nat) :
    (compressStep s kw).length = s.length := by
  unfold compressStep
  split <;> simp

lemma foldl_compress_length (l : List (Nat × Nat)) (s : List Nat) :
    (l.foldl compressStep s).length = s.length := by
  induction l generalizing s with
  | nil => rfl
  | cons kw tl ih => simp only [List.foldl_cons]; rw [ih, compressStep_length]

lemma sha256Block_length (h b : List Nat) (hh : h.length = 8) :
    (sha256Block h b).length = 8 := by
  unfold sha256Block
  simp [foldl_compress_length, hh]

lemma foldl_blocks_length (blocks : List (List Nat)) (h : List Nat) (hh : h.length = 8) :
    (blocks.foldl sha256Block h).length = 8 := by
  induction blocks generalizing h with
  | nil => simpa
  | cons b tl ih => simpa using ih _ (sha256Block_length _ _ hh)

lemma foldr_words_length (l : List Nat) :
    (l.foldr (fun w acc => wordToBytesBE w ++ acc) []).length = 4 * l.length := by
  induction l with
  | nil => rfl
  | cons w tl ih =>
    rw [List.foldr_cons, List.length_append, ih]
    simp only [wordToBytesBE, List.length_cons, List.length_nil]
    omega

lemma sha256Bytes_length (msg : List Nat) : (sha256Bytes msg).length = 32 := by
  unfold sha256Bytes
  rw [foldr_words_length, foldl_blocks_length _ _ (by rfl)]

lemma foldr_words_lt (l : List Nat) (b : Nat)
    (hb : b ∈ l.foldr (fun w acc => wordToBytesBE w ++ acc) []) : b < 256 := by
  induction l with
  | nil => simp at hb
  | cons w tl ih =>
    simp only [List.foldr_cons, List.mem_append] at hb
    rcases hb with hb | hb
    · unfold wordToBytesBE at hb
      simp only [List.mem_cons, List.not_mem_nil, or_false] at hb
      rcases hb with h | h | h | h <;> subst h <;> exact Nat.mod_lt _ (by norm_num)
    · exact ih hb

lemma sha256Bytes_lt (msg : List Nat) : ∀ b ∈ sha256Bytes msg, b < 256 := by
  intro b hb
  exact foldr_words_lt _ _ hb

lemma hexChar_mem (n : Nat) (hn : n < 16) : hexChar n ∈ hexChars := by
  interval_cases n <;> decide

lemma byteToHex_mem (b : Nat) (hb : b < 256) : ∀ c ∈ byteToHex b, c ∈ hexChars := by
  intro c hc
  unfold byteToHex at hc
  simp only [List.mem_cons, List.not_mem_nil, or_false] at hc
  rcases hc with h | h <;> subst h
  · exact hexChar_mem _ (Nat.div_lt_of_lt_mul (by omega))
  · exact hexChar_mem _ (Nat.mod_lt _ (by norm_num))

lemma foldr_hex_length (bs : List Nat) :
    (bs.foldr (fun b acc => byteToHex b ++ acc) []).length = 2 * bs.length := by
  induction bs with
  | nil => rfl
  | cons b tl ih =>
    rw [List.foldr_cons, List.length_append, ih]
    simp only [byteToHex, List.length_cons, List.length_nil]
    omega

lemma foldr_hex_mem (bs : List Nat) (c : Char)
    (hc : c ∈ bs.foldr (fun b acc => byteToHex b ++ acc) []) :
    ∃ b ∈ bs, c ∈ byteToHex b := by
  induction bs with
  | nil => simp at hc
  | cons b tl ih =>
    simp only [List.foldr_cons, List.mem_append] at hc
    rcases hc with hc | hc
    · exact ⟨b, by simp, hc⟩
    · obtain ⟨b2, hb2, hcb⟩ := ih hc
      exact ⟨b2, by simp [hb2], hcb⟩

lemma generate_hash_shape (text : String) :
    (generate_hash text).length = 64 ∧ ∀ c ∈ (generate_hash text).data, c ∈ hexChars := by
  unfold generate_hash bytesToHex
  constructor
  · show (List.foldr _ [] _).length = 64
    rw [foldr_hex_length, sha256Bytes_length]
  · intro c hc
    obtain ⟨b, hb, hcb⟩ := foldr_hex_mem _ _ hc
    exact byteToHex_mem b (sha256Bytes_lt _ _ hb) c hcb

/-! ## Claim C1 — the fingerprint versus the canonical document.

The code does NOT hash the CanonicalDocument: `generate_email_hash` digests
`body + "\n".join(attachments)`, while the canonical text handed to
classification is `full_text` (`"Email Body:\n..."` with blank-line joins).
-/

/-- C1 (counterexample): for body `"b"` with no attachments the stored
fingerprint differs from the SHA-256 of the CanonicalDocument, so the claim
as stated is false. -/
theorem C1_fingerprint_cex :
    ¬ generate_email_hash "b" [] = generate_hash (full_text "b" []) := by decide

/-- C1 (amended): the deduplication fingerprint is the 64-character
lowercase-hex SHA-256 digest of the UTF-8 bytes of `body` followed by the
attachment texts joined by single newlines — not of the CanonicalDocument. -/
theorem C1_fingerprint :
    ∀ (body : String) (atts : List String),
      generate_email_hash body atts = generate_hash (body ++ pyJoin "\n" atts) ∧
      (generate_email_hash body atts).length = 64 ∧
      ∀ c ∈ (generate_email_hash body atts).data, c ∈ hexChars := by
  intro body atts
  exact ⟨rfl, generate_hash_shape _⟩

/-- C1 witness: the amended theorem evaluated at a concrete email. -/
theorem C1_fingerprint_witness :
    (generate_email_hash "b" []).length = 64 ∧ '3' ∈ hexChars :=
  ⟨(C1_fingerprint "b" []).2.1, (C1_fingerprint "b" []).2.2 '3' (by decide)⟩

/-! ## Claim C10 — non-`.eml` uploads are rejected up front. -/

/-- C10: a filename not ending in `.eml` yields HTTP 400 with the exact
detail string, before anything else happens: the store is untouched, the
classifier is never called, and no attachment file is written.  The
result is a constant, so it does not depend on the message content. -/
theorem C10_eml_check :
    ∀ (rt : List (String × String)) (ora : ExtractOracle) (ask : String → Option String)
      (store : Store) (inp : EmailInput),
      pyEndsWith inp.filename ".eml" = false →
      process_email rt ora ask store inp =
        { result := Except.error (PyErr.httpError 400 "Invalid file type. Please upload a .eml file.")
          store := store, calls := 0, written := [] } := by
  intro rt ora ask store inp h
  simp [process_email, h]

/-- C10 witness: a `.txt` upload is rejected with no side effects. -/
theorem C10_eml_check_witness :
    process_email initialize_request_types
      ⟨fun _ => Except.error "e", fun _ => Except.error "e",
       fun _ => Except.error "e", fun _ => Except.error "e"⟩
      (fun _ => none) []
      { filename := "mail.txt", frm := "a@x", subject := "s", body := "b", parts := [] } =
      { result := Except.error (PyErr.httpError 400 "Invalid file type. Please upload a .eml file.")
        store := [], calls := 0, written := [] } :=
  C10_eml_check _ _ _ _ _ (by decide)

/-! ## Claim C7 — taxonomy: fixed seed, append-only. -/

/-- C7: the seed has exactly 8 entries over 4 categories; each append
grows the list by exactly one and keeps every prior entry in place; every
state reachable through the append interface is non-empty and still starts
with the seed in its original order. -/
theorem C7_taxonomy :
    initialize_request_types.length = 8 ∧
    ((initialize_request_types.map Prod.fst).dedup).length = 4 ∧
    (∀ (l : List (String × String)) (c r : String),
      (add_request_type l c r).length = l.length + 1 ∧
      (add_request_type l c r).take l.length = l) ∧
    (∀ l, TaxReachable l → l ≠ [] ∧ l.take 8 = initialize_request_types) := by
  refine ⟨by decide, by decide, ?_, ?_⟩
  · intro l c r
    constructor
    · simp [add_request_type]
    · rw [add_request_type, List.take_append_of_le_length (Nat.le_refl _), List.take_length]
  · intro l hl
    induction hl with
    | seed => exact ⟨by decide, by decide⟩
    | @step l c r hl ih =>
      refine ⟨by simp [add_request_type], ?_⟩
      have hlen : 8 ≤ l.length := by
        have h2 := congrArg List.length ih.2
        simp only [List.length_take] at h2
        have h3 : initialize_request_types.length = 8 := by decide
        omega
      rw [add_request_type, List.take_append_of_le_length hlen, ih.2]

/-- C7 witness: one append onto the seed. -/
theorem C7_taxonomy_witness :
    (add_request_type initialize_request_types "Fraud" "Report Fraud").length =
      initialize_request_types.length + 1 ∧
    (add_request_type initialize_request_types "Fraud" "Report Fraud").take
      initialize_request_types.length = initialize_request_types ∧
    add_request_type initialize_request_types "Fraud" "Report Fraud" ≠ [] :=
  ⟨(C7_taxonomy.2.2.1 _ "Fraud" "Report Fraud").1,
   (C7_taxonomy.2.2.1 _ "Fraud" "Report Fraud").2,
   (C7_taxonomy.2.2.2 _ (TaxReachable.step "Fraud" "Report Fraud" TaxReachable.seed)).1⟩

/-! ## Claim C2 — at most one row per fingerprint.

The table's only uniqueness is the PRIMARY KEY on `id = frm + subject`;
the `hash` column has no constraint, so a direct second insert with the
same fingerprint but a different sender+subject DOES create a second row.
The at-most-one-row-per-fingerprint invariant nevertheless holds for every
store the pipeline can reach, because `process_email` only inserts after
`_check_duplicate` came back empty. -/

/-- C2 (counterexample): two inserts with the same fingerprint but
different senders leave two rows carrying that fingerprint — there is no
unique constraint on the fingerprint column, so the claim as stated is
false. -/
theorem C2_unique_fingerprint_cex :
    hashCount
      (save_email_to_database
        (save_email_to_database [] "alice@x" "s1" "b" [] (generate_email_hash "b" []) [])
        "bob@y" "s2" "b" [] (generate_email_hash "b" []) [])
      (generate_email_hash "b" []) = 2 := by decide

lemma process_email_store_cases (rt : List (String × String)) (ora : ExtractOracle)
    (ask : String → Option String) (store : Store) (inp : EmailInput) :
    (process_email rt ora ask store inp).store = store ∨
    ∃ row : StoredEmail,
      checkDuplicate store row.hash = none ∧
      (process_email rt ora ask store inp).store = store ++ [row] := by
  by_cases hf : pyEndsWith inp.filename ".eml" = false
  · left
    simp [process_email, hf]
  · have hf' : pyEndsWith inp.filename ".eml" = true := by
      revert hf
      cases pyEndsWith inp.filename ".eml" <;> simp
    cases hdup : checkDuplicate store
        (generate_email_hash inp.body (process_attachments ora inp.parts).2) with
    | some dup =>
      left
      simp [process_email, hf', hdup]
    | none =>
      cases hjson : json_loads (classify_and_summarize rt ask
          (full_text inp.body (process_attachments ora inp.parts).2)) with
      | none =>
        left
        simp [process_email, hf', hdup, hjson]
      | some v =>
        cases v with
        | obj kvs =>
          have hstore : (process_email rt ora ask store inp).store =
              save_email_to_database store inp.frm inp.subject inp.body
                (process_attachments ora inp.parts).1
                (generate_email_hash inp.body (process_attachments ora inp.parts).2) kvs := by
            simp [process_email, hf', hdup, hjson]
          rw [hstore]
          unfold save_email_to_database insertOrIgnore
          split
          · exact Or.inl rfl
          · exact Or.inr ⟨_, hdup, rfl⟩
        | null => left; simp [process_email, hf', hdup, hjson]
        | bool b => left; simp [process_email, hf', hdup, hjson]
        | num n => left; simp [process_email, hf', hdup, hjson]
        | str s => left; simp [process_email, hf', hdup, hjson]
        | arr l => left; simp [process_email, hf', hdup, hjson]

lemma hashCount_preserved (rt : List (String × String)) (ora : ExtractOracle)
    (ask : String → Option String) (store : Store) (inp : EmailInput)
    (hinv : ∀ h, hashCount store h ≤ 1) :
    ∀ h, hashCount (process_email rt ora ask store inp).store h ≤ 1 := by
  intro h
  rcases process_email_store_cases rt ora ask store inp with hs | ⟨row, hnone, hs⟩
  · rw [hs]; exact hinv h
  · rw [hs]
    unfold hashCount at hinv ⊢
    rw [List.countP_append]
    by_cases hrh : row.hash = h
    · have hzero : store.countP (fun r => decide (r.hash = h)) = 0 := by
        rw [List.countP_eq_zero]
        intro r hr
        have := List.find?_eq_none.mp hnone r hr
        simp only [decide_eq_true_eq] at this ⊢
        rw [← hrh]
        exact fun hc => this (by simp [hc])
      rw [hzero]
      simp [hrh]
    · have : List.countP (fun r => decide (r.hash = h)) [row] = 0 := by
        simp [hrh]
      rw [this]
      simpa using hinv h

/-- C2 (amended): in every store state the pipeline can reach, at most one
row carries a given fingerprint — but the mechanism is the
`_check_duplicate`-then-insert sequence, not a unique constraint on the
fingerprint column (the PRIMARY KEY is `frm + subject`, and a second
direct insert with the same fingerprint does create a second row, see the
counterexample). -/
theorem C2_at_most_one_row :
    ∀ store : Store, StoreReachable store → ∀ h, hashCount store h ≤ 1 := by
  intro store hreach
  induction hreach with
  | empty => intro h; simp [hashCount]
  | step rt ora ask inp hs ih => exact hashCount_preserved rt ora ask _ inp ih

/-- C2 witness: the invariant evaluated on a concrete reachable store
(one processed email). -/
theorem C2_at_most_one_row_witness :
    hashCount
      (process_email initialize_request_types
        ⟨fun _ => Except.error "e", fun _ => Except.error "e",
         fun _ => Except.error "e", fun _ => Except.error "e"⟩
        (fun _ => some "\x7b\"request_type\": \"Loan Services\"\x7d") []
        { filename := "a.eml", frm := "alice@x", subject := "s", body := "b1", parts := [] }).store
      (generate_email_hash "b1" []) ≤ 1 :=
  C2_at_most_one_row _
    (StoreReachable.step _ _ _ _ StoreReachable.empty)
    (generate_email_hash "b1" [])

/-! ## Claim C9 — attachments whose extracted text is empty. -/

lemma process_attachments_acc (ora : ExtractOracle) (parts : List (Option String))
    (a b : List String) :
    parts.foldl (pa_step ora) (a, b) =
      (a ++ (process_attachments ora parts).1, b ++ (process_attachments ora parts).2) := by
  induction parts generalizing a b with
  | nil => simp [process_attachments]
  | cons p tl ih =>
    cases p with
    | none =>
      show tl.foldl (pa_step ora) (a, b) = _
      rw [show process_attachments ora (none :: tl) = process_attachments ora tl from rfl]
      exact ih a b
    | some f =>
      show tl.foldl (pa_step ora)
        (a ++ ["attachments/" ++ f],
         if extract_attachment_content ora ("attachments/" ++ f) = ""
         then b else b ++ [extract_attachment_content ora ("attachments/" ++ f)]) = _
      rw [show process_attachments ora (some f :: tl) =
            tl.foldl (pa_step ora)
              (["attachments/" ++ f],
               if extract_attachment_content ora ("attachments/" ++ f) = ""
               then ([] : List String)
               else [extract_attachment_content ora ("attachments/" ++ f)]) from rfl]
      rw [ih, ih]
      split_ifs <;> simp [List.append_assoc]

lemma process_attachments_append (ora : ExtractOracle) (l1 l2 : List (Option String)) :
    process_attachments ora (l1 ++ l2) =
      ((process_attachments ora l1).1 ++ (process_attachments ora l2).1,
       (process_attachments ora l1).2 ++ (process_attachments ora l2).2) := by
  unfold process_attachments
  rw [List.foldl_append]
  have h1 : List.foldl (pa_step ora) ([], []) l1 =
      (([] : List String) ++ (process_attachments ora l1).1,
       ([] : List String) ++ (process_attachments ora l1).2) :=
    process_attachments_acc ora l1 [] []
  simp only [List.nil_append] at h1
  rw [h1]
  exact process_attachments_acc ora l2 _ _

/-- C9: a named attachment whose extracted text is empty is dropped from
the attachment-texts sequence: the canonical document and the fingerprint
are the same as for the identical email without that attachment, while the
attachment's path is still recorded in `attachment_paths`. -/
theorem C9_empty_attachment_text :
    ∀ (ora : ExtractOracle) (parts1 parts2 : List (Option String)) (fname body : String),
      extract_attachment_content ora ("attachments/" ++ fname) = "" →
      (process_attachments ora (parts1 ++ some fname :: parts2)).2 =
        (process_attachments ora (parts1 ++ parts2)).2 ∧
      (process_attachments ora (parts1 ++ some fname :: parts2)).1 =
        (process_attachments ora parts1).1 ++ ("attachments/" ++ fname) ::
          (process_attachments ora parts2).1 ∧
      generate_email_hash body (process_attachments ora (parts1 ++ some fname :: parts2)).2 =
        generate_email_hash body (process_attachments ora (parts1 ++ parts2)).2 ∧
      full_text body (process_attachments ora (parts1 ++ some fname :: parts2)).2 =
        full_text body (process_attachments ora (parts1 ++ parts2)).2 := by
  intro ora parts1 parts2 fname body hempty
  have hsingle : process_attachments ora [some fname] = (["attachments/" ++ fname], []) := by
    unfold process_attachments
    rw [List.foldl_cons]
    show List.foldl (pa_step ora)
      ([] ++ ["attachments/" ++ fname],
       if extract_attachment_content ora ("attachments/" ++ fname) = ""
       then ([] : List String)
       else [] ++ [extract_attachment_content ora ("attachments/" ++ fname)]) [] = _
    simp [hempty]
  have hmid : parts1 ++ some fname :: parts2 = (parts1 ++ [some fname]) ++ parts2 := by
    simp
  have hw := process_attachments_append ora (parts1 ++ [some fname]) parts2
  have hl := process_attachments_append ora parts1 [some fname]
  have hwo := process_attachments_append ora parts1 parts2
  rw [hmid, hw, hl, hsingle, hwo]
  refine ⟨by simp, by simp, ?_, by simp⟩
  simp

/-- C9 witness: a blank `.txt` attachment (whitespace-only content) at a
concrete oracle. -/
theorem C9_empty_attachment_text_witness :
    (process_attachments
      ⟨fun _ => Except.error "e", fun _ => Except.ok "  \n ",
       fun _ => Except.error "e", fun _ => Except.error "e"⟩
      [some "blank.txt"]).2 =
      (process_attachments
        ⟨fun _ => Except.error "e", fun _ => Except.ok "  \n ",
         fun _ => Except.error "e", fun _ => Except.error "e"⟩ []).2 ∧
    (process_attachments
      ⟨fun _ => Except.error "e", fun _ => Except.ok "  \n ",
       fun _ => Except.error "e", fun _ => Except.error "e"⟩
      [some "blank.txt"]).1 =
      (process_attachments
        ⟨fun _ => Except.error "e", fun _ => Except.ok "  \n ",
         fun _ => Except.error "e", fun _ => Except.error "e"⟩ []).1 ++
        ("attachments/" ++ "blank.txt") ::
        (process_attachments
          ⟨fun _ => Except.error "e", fun _ => Except.ok "  \n ",
           fun _ => Except.error "e", fun _ => Except.error "e"⟩ []).1 := by
  have h := C9_empty_attachment_text
    ⟨fun _ => Except.error "e", fun _ => Except.ok "  \n ",
     fun _ => Except.error "e", fun _ => Except.error "e"⟩
    [] [] "blank.txt" "b" (by decide)
  exact ⟨h.1, h.2.1⟩

/-! ## Claim C6 — `extract_json` returns the first non-nested
brace-delimited substring, or the literal marker. -/

/-- No brace occurs in `l`. -/
def braceFreeB (l : List Char) : Bool := l.all (fun c => c != '\x7b' && c != '\x7d')

/-- Means `s` decomposes at `pre` into a brace-delimited, brace-free-inside
substring `\x7b int \x7d` followed by `post`. -/
def jmatchAt (s pre int post : List Char) : Prop :=
  s = pre ++ '\x7b' :: (int ++ '\x7d' :: post) ∧ braceFreeB int = true

instance (s pre int post : List Char) : Decidable (jmatchAt s pre int post) := by
  unfold jmatchAt
  infer_instance

lemma ti_sound (l : List Char) : ∀ i r, takeInterior l = some (i, r) →
    l = i ++ '\x7d' :: r ∧ braceFreeB i = true := by
  induction l with
  | nil => intro i r h; exact absurd h (by simp [takeInterior])
  | cons c rest ih =>
    intro i r h
    by_cases h1 : c = '\x7d'
    · rw [takeInterior, if_pos h1] at h
      obtain ⟨hi, hr⟩ := Prod.mk.injEq .. ▸ Option.some.inj h
      subst hi
      subst hr
      subst h1
      exact ⟨rfl, rfl⟩
    · by_cases h2 : c = '\x7b'
      · rw [takeInterior, if_pos h2, if_neg h1] at h
        exact absurd h (by simp)
      · rw [takeInterior, if_neg h1, if_neg h2] at h
        cases hti : takeInterior rest with
        | none => rw [hti] at h; simp at h
        | some p =>
          obtain ⟨i2, r2⟩ := p
          rw [hti] at h
          simp only [Option.some.injEq, Prod.mk.injEq] at h
          obtain ⟨hi, hr⟩ := h
          obtain ⟨hl, hbf⟩ := ih i2 r2 hti
          subst hi
          subst hr
          refine ⟨by rw [hl]; rfl, ?_⟩
          simp only [braceFreeB, List.all_cons, Bool.and_eq_true, bne_iff_ne, ne_eq]
          exact ⟨⟨h2, h1⟩, by simpa [braceFreeB] using hbf⟩

lemma ti_complete : ∀ (int post : List Char), braceFreeB int = true →
    takeInterior (int ++ '\x7d' :: post) = some (int, post) := by
  intro int
  induction int with
  | nil => intro post _; simp [takeInterior]
  | cons c tl ih =>
    intro post h
    simp only [braceFreeB, List.all_cons, Bool.and_eq_true, bne_iff_ne, ne_eq] at h
    obtain ⟨⟨hb, hd⟩, htl⟩ := h
    rw [List.cons_append, takeInterior, if_neg hd, if_neg hb,
      ih post (by simpa [braceFreeB] using htl)]

/-- The behaviour `findJson` must satisfy: either no match exists and the
scan fails, or it returns the leftmost match, which is unique at its
position. -/
def FindSpec (s : List Char) : Prop :=
  (findJson s = none ∧ ∀ pre int post, ¬ jmatchAt s pre int post) ∨
  (∃ pre0 int0 post0, jmatchAt s pre0 int0 post0 ∧
     findJson s = some ('\x7b' :: (int0 ++ ['\x7d'])) ∧
     ∀ pre int post, jmatchAt s pre int post →
       pre0.length ≤ pre.length ∧
       (pre.length = pre0.length → int = int0 ∧ post = post0))

lemma findJson_lift (c : Char) (rest : List Char)
    (hnomatch0 : ∀ int post, ¬ jmatchAt (c :: rest) [] int post)
    (hfind : findJson (c :: rest) = findJson rest)
    (ih : FindSpec rest) : FindSpec (c :: rest) := by
  rcases ih with ⟨hn, hno⟩ | ⟨pre0, int0, post0, hm0, hf0, hmin⟩
  · left
    refine ⟨by rw [hfind, hn], ?_⟩
    intro pre int post hm
    cases pre with
    | nil => exact hnomatch0 int post hm
    | cons p pre2 =>
      obtain ⟨h, hbf⟩ := hm
      rw [List.cons_append] at h
      injection h with h1 h2
      exact hno pre2 int post ⟨h2, hbf⟩
  · right
    obtain ⟨h0, hbf0⟩ := hm0
    refine ⟨c :: pre0, int0, post0, ⟨by rw [List.cons_append, ← h0], hbf0⟩,
      by rw [hfind, hf0], ?_⟩
    intro pre int post hm
    cases pre with
    | nil => exact absurd hm (hnomatch0 int post)
    | cons p pre2 =>
      obtain ⟨h, hbf⟩ := hm
      rw [List.cons_append] at h
      injection h with h1 h2
      have hs := hmin pre2 int post ⟨h2, hbf⟩
      constructor
      · simpa using Nat.succ_le_succ hs.1
      · intro hlen
        exact hs.2 (by simpa using hlen)

lemma findJson_spec (s : List Char) : FindSpec s := by
  induction s with
  | nil =>
    left
    refine ⟨rfl, ?_⟩
    rintro pre int post ⟨h, -⟩
    have hlen := congrArg List.length h
    simp only [List.length_nil, List.length_append, List.length_cons] at hlen
    omega
  | cons c rest ih =>
    by_cases hc : c = '\x7b'
    · cases hti : takeInterior rest with
      | some p =>
        obtain ⟨i, r⟩ := p
        right
        obtain ⟨hl, hbf⟩ := ti_sound rest i r hti
        refine ⟨[], i, r, ⟨by rw [List.nil_append, hl, hc], hbf⟩, ?_, ?_⟩
        · rw [findJson, if_pos hc, hti]
          rfl
        · intro pre int post hm
          refine ⟨Nat.zero_le _, ?_⟩
          intro hlen
          have hpre : pre = [] := List.length_eq_zero.mp (by simpa using hlen)
          subst hpre
          obtain ⟨h, hbf2⟩ := hm
          rw [List.nil_append] at h
          injection h with h1 h2
          have := ti_complete int post hbf2
          rw [← h2, hti] at this
          simp only [Option.some.injEq, Prod.mk.injEq] at this
          exact ⟨this.1.symm, this.2.symm⟩
      | none =>
        refine findJson_lift c rest ?_ (by rw [findJson, if_pos hc, hti]) ih
        rintro int post ⟨h, hbf⟩
        rw [List.nil_append] at h
        injection h with h1 h2
        have := ti_complete int post hbf
        rw [← h2, hti] at this
        exact absurd this (by simp)
    · refine findJson_lift c rest ?_ (by rw [findJson, if_neg hc]) ih
      rintro int post ⟨h, -⟩
      rw [List.nil_append] at h
      injection h with h1 h2
      exact hc h1

/-- C6: for every response text, if no brace-delimited brace-free
substring occurs, `extract_json` returns the literal
`"No JSON found in response."` (and cannot throw — it is total); and any
occurring match is answered with the leftmost one, which is the unique
shortest match at its position (its interior stops at the first brace). -/
theorem C6_extract_json_first_match :
    ∀ s : String,
      ((∀ pre int post, ¬ jmatchAt s.data pre int post) →
        extract_json (some s) = "No JSON found in response.") ∧
      (∀ pre int post, jmatchAt s.data pre int post →
        ∃ pre0 int0 post0, jmatchAt s.data pre0 int0 post0 ∧
          extract_json (some s) = String.mk ('\x7b' :: (int0 ++ ['\x7d'])) ∧
          pre0.length ≤ pre.length ∧
          (pre.length = pre0.length → int = int0 ∧ post = post0)) := by
  intro s
  rcases findJson_spec s.data with ⟨hn, hno⟩ | ⟨pre0, int0, post0, hm0, hf0, hmin⟩
  · refine ⟨fun _ => by simp [extract_json, hn], ?_⟩
    intro pre int post hm
    exact absurd hm (hno pre int post)
  · refine ⟨fun hno => absurd hm0 (hno _ _ _), ?_⟩
    intro pre int post hm
    exact ⟨pre0, int0, post0, hm0, by simp [extract_json, hf0],
      (hmin pre int post hm).1, fun h => (hmin pre int post hm).2 h⟩

lemma no_match_of_no_brace (l : List Char) (h : '\x7b' ∉ l) :
    ∀ pre int post, ¬ jmatchAt l pre int post := by
  rintro pre int post ⟨he, -⟩
  apply h
  rw [he]
  simp

/-- C6 witness: a brace-free response is answered with the marker, and a
response with one match is answered with exactly that match. -/
theorem C6_extract_json_first_match_witness :
    extract_json (some "plain text") = "No JSON found in response." ∧
    extract_json (some "x\x7ba\x7dy") = "\x7ba\x7d" := by
  refine ⟨(C6_extract_json_first_match "plain text").1
      (no_match_of_no_brace _ (by decide)), ?_⟩
  obtain ⟨pre0, int0, post0, hm, hext, hle, heq⟩ :=
    (C6_extract_json_first_match "x\x7ba\x7dy").2 ['x'] ['a'] ['y'] (by decide)
  obtain ⟨h, -⟩ := hm
  cases pre0 with
  | nil =>
    rw [List.nil_append] at h
    injection h with h1 _
    exact absurd h1 (by decide)
  | cons p pre1 =>
    have hpre1 : pre1 = [] := by
      simp only [List.length_cons, List.length_nil] at hle
      exact List.length_eq_zero.mp (by omega)
    subst hpre1
    obtain ⟨hint, hpost⟩ := heq (by simp)
    rw [hext, ← hint]
    decide

/-! ## Concrete fixtures used by witnesses and counterexamples. -/

/-- An oracle whose format libraries always raise. -/
def oraE : ExtractOracle :=
  ⟨fun _ => Except.error "e", fun _ => Except.error "e",
   fun _ => Except.error "e", fun _ => Except.error "e"⟩

/-- A classification service that always answers with one JSON object. -/
def askLoan : String → Option String :=
  fun _ => some "\x7b\"request_type\": \"Loan Services\"\x7d"

/-- A classification service whose answer is an empty JSON object. -/
def askEmptyObj : String → Option String := fun _ => some "ok \x7b\x7d"

/-- A classification service whose answer has no brace-delimited substring. -/
def askNoJson : String → Option String := fun _ => some "no braces here"

def emlA : EmailInput :=
  { filename := "a.eml", frm := "alice@x", subject := "s", body := "b1", parts := [] }

/-- Same sender and subject as `emlA`, different body. -/
def emlB : EmailInput :=
  { filename := "a.eml", frm := "alice@x", subject := "s", body := "b2", parts := [] }

def emlC : EmailInput :=
  { filename := "c.eml", frm := "carol@x", subject := "t", body := "b3", parts := [] }

/-! ## Claims C3, C4, C8 — the three DuplicateCheck-miss/hit outcomes. -/

lemma process_email_dup_path (rt : List (String × String)) (ora : ExtractOracle)
    (ask : String → Option String) (store : Store) (inp : EmailInput) (row : StoredEmail)
    (hf : pyEndsWith inp.filename ".eml" = true)
    (hdup : checkDuplicate store
      (generate_email_hash inp.body (process_attachments ora inp.parts).2) = some row) :
    process_email rt ora ask store inp =
      { result := Except.ok (PResult.duplicate "Duplicate email detected." row.frm row.subject
          row.request_type row.sub_request_type row.summary)
        store := store, calls := 0
        written := (process_attachments ora inp.parts).1 } := by
  simp [process_email, hf, hdup]

/-- C3 (amended): whenever the first run of an email leaves a row with the
email's fingerprint in the store (in particular, whenever its insert was
not swallowed by a pre-existing row with the same `frm + subject` id), the
second unchanged run finds that row: it returns
`"Duplicate email detected."` with the stored sender, subject and
classification fields, makes zero classification calls, and leaves the
store exactly as it was. -/
theorem C3_second_run_duplicate :
    ∀ (rt : List (String × String)) (ora : ExtractOracle) (ask : String → Option String)
      (store : Store) (inp : EmailInput),
      pyEndsWith inp.filename ".eml" = true →
      (∃ row ∈ (process_email rt ora ask store inp).store,
          row.hash = generate_email_hash inp.body (process_attachments ora inp.parts).2) →
      ∃ row : StoredEmail,
        checkDuplicate (process_email rt ora ask store inp).store
            (generate_email_hash inp.body (process_attachments ora inp.parts).2) = some row ∧
        process_email rt ora ask (process_email rt ora ask store inp).store inp =
          { result := Except.ok (PResult.duplicate "Duplicate email detected." row.frm row.subject
              row.request_type row.sub_request_type row.summary)
            store := (process_email rt ora ask store inp).store
            calls := 0
            written := (process_attachments ora inp.parts).1 } := by
  intro rt ora ask store inp hf hex
  have hsum : (checkDuplicate (process_email rt ora ask store inp).store
      (generate_email_hash inp.body (process_attachments ora inp.parts).2)).isSome = true := by
    rw [checkDuplicate, List.find?_isSome]
    obtain ⟨row, hmem, hh⟩ := hex
    exact ⟨row, hmem, by simp [hh]⟩
  obtain ⟨row, hrow⟩ := Option.isSome_iff_exists.mp hsum
  exact ⟨row, hrow, process_email_dup_path rt ora ask _ inp row hf hrow⟩

/-- C3 (counterexample): from the empty store, process `emlA`
(sender `alice@x`, subject `s`, body `b1`), then process `emlB` (same
sender and subject, body `b2`) twice unchanged.  `emlB`'s insert is
silently ignored because the PRIMARY KEY `frm + subject` collides with
`emlA`'s row, so its second run is NOT the duplicate path and calls the
classification service again — the claim as stated is false. -/
theorem C3_second_run_duplicate_cex :
    isDuplicateResult (process_email initialize_request_types oraE askLoan
      (process_email initialize_request_types oraE askLoan
        (process_email initialize_request_types oraE askLoan [] emlA).store emlB).store
      emlB) = false ∧
    (process_email initialize_request_types oraE askLoan
      (process_email initialize_request_types oraE askLoan
        (process_email initialize_request_types oraE askLoan [] emlA).store emlB).store
      emlB).calls = 1 := by decide

/-- C3 witness: a fresh sender+subject (`emlC`) processed twice — the
second run is the duplicate short-circuit. -/
theorem C3_second_run_duplicate_witness :
    process_email initialize_request_types oraE askLoan
        (process_email initialize_request_types oraE askLoan [] emlC).store emlC =
      { result := Except.ok (PResult.duplicate "Duplicate email detected." "carol@x" "t"
          (JVal.str "Loan Services") (JVal.str "Unknown") (JVal.str "No summary provided"))
        store := (process_email initialize_request_types oraE askLoan [] emlC).store
        calls := 0
        written := [] } := by
  have hsome : (checkDuplicate (process_email initialize_request_types oraE askLoan [] emlC).store
      (generate_email_hash emlC.body (process_attachments oraE emlC.parts).2)).isSome = true := by
    decide
  obtain ⟨row0, hrow0⟩ := Option.isSome_iff_exists.mp hsome
  obtain ⟨row, hrow, heq⟩ :=
    C3_second_run_duplicate initialize_request_types oraE askLoan [] emlC (by decide)
      ⟨row0, List.mem_of_find?_eq_some hrow0, by simpa using List.find?_some hrow0⟩
  have hr2 : checkDuplicate (process_email initialize_request_types oraE askLoan [] emlC).store
      (generate_email_hash emlC.body (process_attachments oraE emlC.parts).2) =
      some ⟨"carol@xt", "carol@x", "t", "b3", "[]", generate_email_hash "b3" [],
        JVal.str "Loan Services", JVal.str "Unknown", JVal.str "No summary provided"⟩ := by
    rfl
  have hrr : row = ⟨"carol@xt", "carol@x", "t", "b3", "[]", generate_email_hash "b3" [],
      JVal.str "Loan Services", JVal.str "Unknown", JVal.str "No summary provided"⟩ :=
    Option.some.inj (hrow.symm.trans hr2)
  rw [hrr] at heq
  exact heq

/-- C4: on a DuplicateCheck miss, if the classification service call fails
(`ask` returns `None`) or its response contains no brace-delimited
substring, `classify_and_summarize` yields one of the two literal failure
markers, neither of which parses as JSON, so `process_email` surfaces a
`JSONDecodeError` carrying that marker and persists nothing: the store is
returned unchanged. -/
theorem C4_classification_failure :
    ∀ (rt : List (String × String)) (ora : ExtractOracle) (ask : String → Option String)
      (store : Store) (inp : EmailInput),
      pyEndsWith inp.filename ".eml" = true →
      checkDuplicate store
        (generate_email_hash inp.body (process_attachments ora inp.parts).2) = none →
      (ask (prompt_text rt (full_text inp.body (process_attachments ora inp.parts).2)) = none ∨
       ∃ t, ask (prompt_text rt (full_text inp.body (process_attachments ora inp.parts).2)) =
              some t ∧ findJson t.data = none) →
      (classify_and_summarize rt ask (full_text inp.body (process_attachments ora inp.parts).2) =
          "JSON extraction failed" ∨
       classify_and_summarize rt ask (full_text inp.body (process_attachments ora inp.parts).2) =
          "No JSON found in response.") ∧
      process_email rt ora ask store inp =
        { result := Except.error (PyErr.jsonDecodeError (classify_and_summarize rt ask
            (full_text inp.body (process_attachments ora inp.parts).2)))
          store := store, calls := 1
          written := (process_attachments ora inp.parts).1 } := by
  intro rt ora ask store inp hf hdup hask
  have hmark : classify_and_summarize rt ask
      (full_text inp.body (process_attachments ora inp.parts).2) = "JSON extraction failed" ∨
      classify_and_summarize rt ask
      (full_text inp.body (process_attachments ora inp.parts).2) = "No JSON found in response." := by
    rcases hask with h | ⟨t, ht, hfind⟩
    · left
      unfold classify_and_summarize
      rw [h]
      rfl
    · right
      unfold classify_and_summarize
      rw [ht]
      simp [extract_json, hfind]
  have hjl : json_loads (classify_and_summarize rt ask
      (full_text inp.body (process_attachments ora inp.parts).2)) = none := by
    rcases hmark with h | h <;> rw [h] <;> rfl
  exact ⟨hmark, by simp [process_email, hf, hdup, hjl]⟩

/-- C4 witness: a service whose response has no braces, on a fresh store. -/
theorem C4_classification_failure_witness :
    (classify_and_summarize initialize_request_types askNoJson
        (full_text emlC.body (process_attachments oraE emlC.parts).2) =
        "JSON extraction failed" ∨
     classify_and_summarize initialize_request_types askNoJson
        (full_text emlC.body (process_attachments oraE emlC.parts).2) =
        "No JSON found in response.") ∧
    process_email initialize_request_types oraE askNoJson [] emlC =
      { result := Except.error (PyErr.jsonDecodeError (classify_and_summarize
          initialize_request_types askNoJson
          (full_text emlC.body (process_attachments oraE emlC.parts).2)))
        store := [], calls := 1
        written := (process_attachments oraE emlC.parts).1 } :=
  C4_classification_failure initialize_request_types oraE askNoJson [] emlC
    (by decide) rfl (Or.inr ⟨"no braces here", rfl, rfl⟩)

lemma foldl_get_none (k : String) (kvs : List (String × JVal))
    (h : ∀ kv ∈ kvs, ¬ kv.1 = k) :
    kvs.foldl (fun acc kv => if kv.1 = k then some kv.2 else acc)
      (none : Option JVal) = none := by
  induction kvs with
  | nil => rfl
  | cons kv tl ih =>
    rw [List.foldl_cons, if_neg (h kv (by simp))]
    exact ih (fun kv2 hm => h kv2 (List.mem_cons_of_mem _ hm))

lemma jsonGet_absent (kvs : List (String × JVal)) (k : String) (d : JVal)
    (h : ∀ kv ∈ kvs, ¬ kv.1 = k) : jsonGet kvs k d = d := by
  unfold jsonGet
  rw [foldl_get_none k kvs h]
  rfl

/-- C8: on a miss whose response parses to a JSON object, every absent key
falls back to its sentinel (`"Unknown"`, `"Unknown"`,
`"No summary provided"`) via `dict.get`, and the very same three values
appear both in the returned payload and in the row handed to the insert
(so in the persisted record whenever a row is created). -/
theorem C8_sentinel_defaults :
    ∀ (rt : List (String × String)) (ora : ExtractOracle) (ask : String → Option String)
      (store : Store) (inp : EmailInput) (kvs : List (String × JVal)),
      pyEndsWith inp.filename ".eml" = true →
      checkDuplicate store
        (generate_email_hash inp.body (process_attachments ora inp.parts).2) = none →
      json_loads (classify_and_summarize rt ask
        (full_text inp.body (process_attachments ora inp.parts).2)) = some (JVal.obj kvs) →
      (process_email rt ora ask store inp).result =
        Except.ok (PResult.classified inp.frm inp.subject
          (jsonGet kvs "request_type" (JVal.str "Unknown"))
          (jsonGet kvs "sub_request_type" (JVal.str "Unknown"))
          (jsonGet kvs "summary" (JVal.str "No summary provided"))) ∧
      (process_email rt ora ask store inp).store =
        save_email_to_database store inp.frm inp.subject inp.body
          (process_attachments ora inp.parts).1
          (generate_email_hash inp.body (process_attachments ora inp.parts).2) kvs ∧
      ((∀ kv ∈ kvs, ¬ kv.1 = "request_type") →
        jsonGet kvs "request_type" (JVal.str "Unknown") = JVal.str "Unknown") ∧
      ((∀ kv ∈ kvs, ¬ kv.1 = "sub_request_type") →
        jsonGet kvs "sub_request_type" (JVal.str "Unknown") = JVal.str "Unknown") ∧
      ((∀ kv ∈ kvs, ¬ kv.1 = "summary") →
        jsonGet kvs "summary" (JVal.str "No summary provided") =
          JVal.str "No summary provided") ∧
      ((process_email rt ora ask store inp).store = store ∨
        ∃ row : StoredEmail,
          (process_email rt ora ask store inp).store = store ++ [row] ∧
          row.request_type = jsonGet kvs "request_type" (JVal.str "Unknown") ∧
          row.sub_request_type = jsonGet kvs "sub_request_type" (JVal.str "Unknown") ∧
          row.summary = jsonGet kvs "summary" (JVal.str "No summary provided")) := by
  intro rt ora ask store inp kvs hf hdup hjson
  have hrun : process_email rt ora ask store inp =
      { result := Except.ok (PResult.classified inp.frm inp.subject
          (jsonGet kvs "request_type" (JVal.str "Unknown"))
          (jsonGet kvs "sub_request_type" (JVal.str "Unknown"))
          (jsonGet kvs "summary" (JVal.str "No summary provided")))
        store := save_email_to_database store inp.frm inp.subject inp.body
          (process_attachments ora inp.parts).1
          (generate_email_hash inp.body (process_attachments ora inp.parts).2) kvs
        calls := 1
        written := (process_attachments ora inp.parts).1 } := by
    simp [process_email, hf, hdup, hjson]
  refine ⟨by rw [hrun], by rw [hrun],
    jsonGet_absent kvs "request_type" _,
    jsonGet_absent kvs "sub_request_type" _,
    jsonGet_absent kvs "summary" _, ?_⟩
  rw [hrun]
  show save_email_to_database store inp.frm inp.subject inp.body _ _ kvs = store ∨ _
  unfold save_email_to_database insertOrIgnore
  split
  · exact Or.inl rfl
  · exact Or.inr ⟨_, rfl, rfl, rfl, rfl⟩

/-- C8 witness: an empty JSON object response — all three fields fall back
to their sentinels in the returned payload. -/
theorem C8_sentinel_defaults_witness :
    (process_email initialize_request_types oraE askEmptyObj [] emlC).result =
      Except.ok (PResult.classified emlC.frm emlC.subject (JVal.str "Unknown")
        (JVal.str "Unknown") (JVal.str "No summary provided")) ∧
    jsonGet [] "request_type" (JVal.str "Unknown") = JVal.str "Unknown" ∧
    jsonGet [] "summary" (JVal.str "No summary provided") = JVal.str "No summary provided" :=
  ⟨(C8_sentinel_defaults initialize_request_types oraE askEmptyObj [] emlC []
      (by decide) rfl rfl).1,
   (C8_sentinel_defaults initialize_request_types oraE askEmptyObj [] emlC []
      (by decide) rfl rfl).2.2.1 (by simp),
   (C8_sentinel_defaults initialize_request_types oraE askEmptyObj [] emlC []
      (by decide) rfl rfl).2.2.2.2.1 (by simp)⟩

/-- C5: extraction dispatches on the lowercased extension.  An extension
outside the six supported ones yields the literal unsupported-type marker,
and a failing format library yields the literal per-format error marker;
in every case a plain string comes back (extraction is total by
construction, so the pipeline proceeds regardless). -/
theorem C5_extraction_markers :
    ∀ (ora : ExtractOracle) (path : String),
      (¬ (pyLower (splitextExt path) = ".pdf" ∨ pyLower (splitextExt path) = ".txt" ∨
          pyLower (splitextExt path) = ".docx" ∨ pyLower (splitextExt path) = ".png" ∨
          pyLower (splitextExt path) = ".jpg" ∨ pyLower (splitextExt path) = ".jpeg") →
        extract_attachment_content ora path =
          "[Unsupported file type: " ++ pyLower (splitextExt path) ++ "]") ∧
      (∀ e, pyLower (splitextExt path) = ".pdf" → ora.readPdf path = Except.error e →
        extract_attachment_content ora path = "[Error reading PDF: " ++ e ++ "]") ∧
      (∀ e, pyLower (splitextExt path) = ".txt" → ora.readTxt path = Except.error e →
        extract_attachment_content ora path = "[Error reading TXT file: " ++ e ++ "]") ∧
      (∀ e, pyLower (splitextExt path) = ".docx" → ora.readDocx path = Except.error e →
        extract_attachment_content ora path = "[Error reading DOCX file: " ++ e ++ "]") ∧
      (∀ e, (pyLower (splitextExt path) = ".png" ∨ pyLower (splitextExt path) = ".jpg" ∨
             pyLower (splitextExt path) = ".jpeg") → ora.readImage path = Except.error e →
        extract_attachment_content ora path = "[Error reading image: " ++ e ++ "]") := by
  intro ora path
  refine ⟨?_, ?_, ?_, ?_, ?_⟩
  · intro h
    push_neg at h
    obtain ⟨h1, h2, h3, h4, h5, h6⟩ := h
    simp [extract_attachment_content, h1, h2, h3, h4, h5, h6]
  · intro e hext herr
    simp [extract_attachment_content, hext, extract_text_from_pdf, herr]
  · intro e hext herr
    simp [extract_attachment_content, hext, extract_text_from_txt, herr]
  · intro e hext herr
    simp [extract_attachment_content, hext, extract_text_from_docx, herr]
  · intro e hext herr
    rcases hext with h | h | h <;>
      simp [extract_attachment_content, h, extract_text_from_image, herr]

/-- C5 witness: an unsupported `.xyz` attachment and a corrupt `.pdf`
attachment, both at a failing oracle. -/
theorem C5_extraction_markers_witness :
    extract_attachment_content
      ⟨fun _ => Except.error "boom", fun _ => Except.error "boom",
       fun _ => Except.error "boom", fun _ => Except.error "boom"⟩
      "attachments/a.xyz" = "[Unsupported file type: .xyz]" ∧
    extract_attachment_content
      ⟨fun _ => Except.error "boom", fun _ => Except.error "boom",
       fun _ => Except.error "boom", fun _ => Except.error "boom"⟩
      "attachments/a.PDF" = "[Error reading PDF: boom]" :=
  ⟨(C5_extraction_markers _ "attachments/a.xyz").1 (by decide),
   (C5_extraction_markers _ "attachments/a.PDF").2.1 "boom" (by decide) rfl⟩

end EmailProc
